import Mathlib

/-!
# Depreciation schedule engine: a shallow embedding

Shallow embedding of `src/depreciation.py` over exact rational arithmetic.
Each Python function that builds or transforms a depreciation schedule is
translated to a Lean definition of the same name; Python `for` loops carrying
mutable accumulators become structurally recursive loop functions carrying the
accumulator explicitly; Python `ValueError` / `ZeroDivisionError` raised by the
dispatcher become an `Except` error type.
-/

set_option autoImplicit false

/-- A year record of a schedule: the Python dict
`{Year, Depreciation Expense, Accumulated Depreciation, Book Value}` with the
optional `Tax Savings` key added by the tax-savings overlay. -/
structure YearRecord where
  year : ℕ
  expense : ℚ
  accumulated : ℚ
  bookValue : ℚ
  taxSavings : Option ℚ
  deriving Repr, DecidableEq

/-- Default record used with `List.getD` when indexing schedules. -/
def dummyRecord : YearRecord :=
  { year := 0, expense := 0, accumulated := 0, bookValue := 0, taxSavings := none }

/-- First record of the three-year sample schedule used in concrete witnesses
(the spec's straight-line sample asset: cost 10000, residual 1000, life 5). -/
def sampleFirstRecord : YearRecord :=
  { year := 1, expense := 1800, accumulated := 1800, bookValue := 8200,
    taxSavings := none }

/-- Three-year sample schedule used in concrete witnesses. -/
def sampleSchedule3 : List YearRecord :=
  sampleFirstRecord ::
    [{ year := 2, expense := 1800, accumulated := 3600, bookValue := 6400,
       taxSavings := none },
     { year := 3, expense := 1800, accumulated := 5400, bookValue := 4600,
       taxSavings := none }]

/-- Single-record schedule used for the C1 counterexample. -/
def exampleSchedule : List YearRecord :=
  [{ year := 1, expense := 100, accumulated := 100, bookValue := 900,
     taxSavings := none }]

/-- Errors the dispatcher can raise: the two `ValueError`s of
`generate_depreciation_schedule` (invalid method, carrying the valid method
set; missing units-of-production input, carrying the message) and the
`ZeroDivisionError` propagated from `straight_line_depreciation` when
`useful_life = 0`. -/
inductive DeprError where
  | invalidMethod (validMethods : List String)
  | invalidInput (msg : String)
  | zeroDivisionError
  deriving Repr, DecidableEq

/-- The valid method set named by the invalid-method `ValueError`. -/
def validMethodSet : List String :=
  ["straight_line", "declining_balance", "units_of_production"]

/-- The message of the units-of-production `ValueError`. -/
def uopErrorMessage : String :=
  "Total units and units used must be provided for units-of-production method."

/-- Embedding of `straight_line_depreciation(cost, residual_value, useful_life)`:
`(cost - residual_value) / useful_life`.  In Python this raises
`ZeroDivisionError` when `useful_life = 0`; callers that can hit that case
(the dispatcher) check it explicitly. -/
def straight_line_depreciation (cost residual_value : ℚ) (useful_life : ℕ) : ℚ :=
  (cost - residual_value) / (useful_life : ℚ)

/-- Loop body of `generate_straight_line_schedule`: iterates over the year
numbers carrying `accumulated_depreciation`. -/
def slLoop (cost annual : ℚ) : List ℕ → ℚ → List YearRecord
  | [], _ => []
  | y :: ys, acc =>
    let acc2 := acc + annual
    { year := y, expense := annual, accumulated := acc2,
      bookValue := cost - acc2, taxSavings := none } :: slLoop cost annual ys acc2

/-- Embedding of `generate_straight_line_schedule(cost, residual_value, useful_life)`:
one record per year `1..useful_life`, constant expense, running-sum
accumulated depreciation, book value = cost - accumulated. -/
def generate_straight_line_schedule (cost residual_value : ℚ) (useful_life : ℕ) :
    List YearRecord :=
  slLoop cost (straight_line_depreciation cost residual_value useful_life)
    (List.range' 1 useful_life) 0

/-- The per-year expense computation of `declining_balance_depreciation`:
zero below the residual floor, otherwise `(factor/useful_life) * book_value`
clamped so the book value never drops below `residual_value`. -/
def db_expense (residual_value factor : ℚ) (useful_life : ℕ) (book_value : ℚ) : ℚ :=
  if book_value < residual_value then 0
  else
    let e := (factor / (useful_life : ℚ)) * book_value
    if e + residual_value > book_value then book_value - residual_value else e

/-- Loop body of `declining_balance_depreciation`: iterates over the year
numbers carrying `book_value`. -/
def dbLoop (cost residual_value : ℚ) (useful_life : ℕ) (factor : ℚ) :
    List ℕ → ℚ → List YearRecord
  | [], _ => []
  | y :: ys, book_value =>
    let depreciation_expense := db_expense residual_value factor useful_life book_value
    let book2 := book_value - depreciation_expense
    { year := y, expense := depreciation_expense, accumulated := cost - book2,
      bookValue := book2, taxSavings := none }
      :: dbLoop cost residual_value useful_life factor ys book2

/-- Embedding of `declining_balance_depreciation(cost, residual_value, useful_life, factor)`. -/
def declining_balance_depreciation (cost residual_value : ℚ) (useful_life : ℕ)
    (factor : ℚ) : List YearRecord :=
  dbLoop cost residual_value useful_life factor (List.range' 1 useful_life) cost

/-- Loop body of `units_of_production_depreciation`: iterates over
`units_used` carrying the year counter and `accumulated_depreciation`. -/
def uopLoop (cost depreciation_per_unit : ℚ) : List ℚ → ℕ → ℚ → List YearRecord
  | [], _, _ => []
  | units :: rest, year, acc =>
    let depreciation_expense := units * depreciation_per_unit
    let acc2 := acc + depreciation_expense
    { year := year, expense := depreciation_expense, accumulated := acc2,
      bookValue := cost - acc2, taxSavings := none }
      :: uopLoop cost depreciation_per_unit rest (year + 1) acc2

/-- Embedding of `units_of_production_depreciation(cost, residual_value, total_units,
units_used)`. -/
def units_of_production_depreciation (cost residual_value total_units : ℚ)
    (units_used : List ℚ) : List YearRecord :=
  uopLoop cost ((cost - residual_value) / total_units) units_used 1 0

/-- The straight-line normalization pass at the end of
`generate_depreciation_schedule`: fills `Accumulated Depreciation` by running
sum over the bare-expense records and sets `Book Value = cost - accumulated`. -/
def normalize_straight_line (cost : ℚ) : List YearRecord → ℚ → List YearRecord
  | [], _ => []
  | r :: rs, acc =>
    let acc2 := acc + r.expense
    { r with accumulated := acc2, bookValue := cost - acc2 }
      :: normalize_straight_line cost rs acc2

/-- Embedding of `generate_depreciation_schedule(method, cost, residual_value, useful_life,
factor=None, total_units=None, units_used=None)`.

* `straight_line`: calls `straight_line_depreciation` (which raises
  `ZeroDivisionError` when `useful_life = 0`), builds bare-expense records,
  then the normalization pass fills accumulated depreciation and book value.
* `declining_balance`: `if not factor: factor = 2` — Python truthiness, so
  both `None` and `0` are replaced by the default `2`.
* `units_of_production`: `if total_units and units_used` — Python truthiness,
  so `None`, `0` and the empty list all fail with the `ValueError`.
* any other method: `ValueError` naming the valid method set.

An `Except.error` result carries no schedule: no partial schedule is ever
returned on failure. -/
def generate_depreciation_schedule (method : String) (cost residual_value : ℚ)
    (useful_life : ℕ) (factor : Option ℚ) (total_units : Option ℚ)
    (units_used : Option (List ℚ)) : Except DeprError (List YearRecord) :=
  if method = "straight_line" then
    if useful_life = 0 then Except.error DeprError.zeroDivisionError
    else
      let annual_depreciation := straight_line_depreciation cost residual_value useful_life
      let schedule := (List.range' 1 useful_life).map (fun year =>
        { year := year, expense := annual_depreciation, accumulated := 0,
          bookValue := 0, taxSavings := none })
      Except.ok (normalize_straight_line cost schedule 0)
  else if method = "declining_balance" then
    let f : ℚ := match factor with
      | none => 2
      | some x => if x = 0 then 2 else x
    Except.ok (declining_balance_depreciation cost residual_value useful_life f)
  else if method = "units_of_production" then
    match total_units, units_used with
    | some t, some us =>
      if t ≠ 0 ∧ us ≠ [] then
        Except.ok (units_of_production_depreciation cost residual_value t us)
      else Except.error (DeprError.invalidInput uopErrorMessage)
    | _, _ => Except.error (DeprError.invalidInput uopErrorMessage)
  else Except.error (DeprError.invalidMethod validMethodSet)

/-- Loop body of `macrs_depreciation`: iterates over the percentage table
carrying the year counter and `accumulated_depreciation`. -/
def macrsLoop (cost : ℚ) : List ℚ → ℕ → ℚ → List YearRecord
  | [], _, _ => []
  | percentage :: rest, year, acc =>
    let depreciation_expense := cost * (percentage / 100)
    let acc2 := acc + depreciation_expense
    { year := year, expense := depreciation_expense, accumulated := acc2,
      bookValue := max (cost - acc2) 0, taxSavings := none }
      :: macrsLoop cost rest (year + 1) acc2

/-- The default MACRS 5-year-property percentage table. -/
def default_macrs_percentage : List ℚ := [20, 32, 19.2, 11.52, 11.52, 5.76]

/-- Embedding of `macrs_depreciation(cost, macrs_percentage)`: expense =
`cost * percentage/100`, book value floored at 0. -/
def macrs_depreciation (cost : ℚ) (macrs_percentage : List ℚ) : List YearRecord :=
  macrsLoop cost macrs_percentage 1 0

/-- The cascade loop of `partial_year_depreciation`: each remaining record is
rewritten in place from the (already rewritten) previous record —
`accumulated = prev.accumulated + expense`, `bookValue = prev.bookValue -
expense`.  `prev` carries the previous (rewritten) record. -/
def cascade_adjust : YearRecord → List YearRecord → List YearRecord
  | prev, [] => [prev]
  | prev, r :: rs =>
    prev :: cascade_adjust
      { r with accumulated := prev.accumulated + r.expense,
               bookValue := prev.bookValue - r.expense } rs

/-- Embedding of `partial_year_depreciation(depreciation_schedule, acquisition_month)`:
prorates the first record's expense by the months remaining in the
acquisition year, then re-derives the book-value adjustment from the
already-overwritten expense field (`adjusted - schedule[0].expense` with the
expense already set to `adjusted`), then cascades accumulated
depreciation and book value over the remaining records.  Python would raise
`IndexError` on an empty schedule; the claims only concern non-empty input. -/
def partial_year_depreciation (depreciation_schedule : List YearRecord)
    (acquisition_month : ℕ) : List YearRecord :=
  match depreciation_schedule with
  | [] => []
  | r0 :: rest =>
    let monthly_depreciation := r0.expense / 12
    let months_depreciated : ℚ := 12 - (acquisition_month : ℚ) + 1
    let adjusted_first_year_depreciation := monthly_depreciation * months_depreciated
    let r0a := { r0 with expense := adjusted_first_year_depreciation }
    let r0b := { r0a with
      bookValue := r0a.bookValue - (adjusted_first_year_depreciation - r0a.expense) }
    cascade_adjust r0b rest

/-- Embedding of `inflation_adjusted_depreciation(depreciation_schedule, inflation_rate)`. -/
def inflation_adjusted_depreciation (depreciation_schedule : List YearRecord)
    (inflation_rate : ℚ) : List YearRecord :=
  depreciation_schedule.map (fun year_data =>
    let expense2 := year_data.expense * (1 + inflation_rate) ^ (year_data.year - 1)
    let book2 := year_data.bookValue * (1 + inflation_rate) ^ year_data.year
    { year_data with expense := expense2, bookValue := book2,
                     accumulated := book2 - expense2 })

/-- Embedding of `tax_savings_from_depreciation(depreciation_schedule, tax_rate)`: sets
(overwrites) `Tax Savings = Depreciation Expense * tax_rate` on every record. -/
def tax_savings_from_depreciation (depreciation_schedule : List YearRecord)
    (tax_rate : ℚ) : List YearRecord :=
  depreciation_schedule.map (fun year_data =>
    { year_data with taxSavings := some (year_data.expense * tax_rate) })

/-! ## Lemmas about the straight-line loop -/

theorem slLoop_expense (cost annual : ℚ) (ys : List ℕ) (acc : ℚ) :
    ∀ r ∈ slLoop cost annual ys acc, r.expense = annual := by
  induction ys generalizing acc with
  | nil => intro r hr; simp [slLoop] at hr
  | cons y ys ih =>
    intro r hr
    simp only [slLoop, List.mem_cons] at hr
    rcases hr with h | h
    · simp [h]
    · exact ih _ r h

theorem slLoop_getLast_accumulated (cost annual : ℚ) (ys : List ℕ) (acc : ℚ)
    (r : YearRecord) (h : (slLoop cost annual ys acc).getLast? = some r) :
    r.accumulated = acc + annual * ys.length := by
  induction ys generalizing acc with
  | nil => simp [slLoop] at h
  | cons y ys ih =>
    cases ys with
    | nil =>
      simp only [slLoop, List.getLast?_singleton, Option.some.injEq] at h
      simp [← h]
    | cons y2 ys2 =>
      have h2 : (slLoop cost annual (y2 :: ys2) (acc + annual)).getLast? = some r := by
        have e : slLoop cost annual (y :: y2 :: ys2) acc
            = ({ year := y, expense := annual, accumulated := acc + annual,
                 bookValue := cost - (acc + annual), taxSavings := none } : YearRecord)
              :: ({ year := y2, expense := annual, accumulated := acc + annual + annual,
                    bookValue := cost - (acc + annual + annual), taxSavings := none } : YearRecord)
              :: slLoop cost annual ys2 (acc + annual + annual) := rfl
        rw [e, List.getLast?_cons_cons] at h
        exact h
      have := ih (acc + annual) h2
      rw [this]
      simp only [List.length_cons]
      push_cast
      ring

/-- C2: for every cost, residual value and useful_life >= 1, every record of
`generate_straight_line_schedule` has Depreciation Expense equal to
`(cost - residual_value) / useful_life`, and the final record's Accumulated
Depreciation equals `cost - residual_value` exactly. -/
theorem C2_straight_line_schedule (cost residual_value : ℚ) (useful_life : ℕ)
    (h : 1 ≤ useful_life) :
    (∀ r ∈ generate_straight_line_schedule cost residual_value useful_life,
        r.expense = (cost - residual_value) / (useful_life : ℚ)) ∧
    (∀ r, (generate_straight_line_schedule cost residual_value useful_life).getLast?
            = some r →
        r.accumulated = cost - residual_value) := by
  constructor
  · intro r hr
    exact slLoop_expense _ _ _ _ r hr
  · intro r hr
    have hacc := slLoop_getLast_accumulated _ _ _ _ r hr
    rw [List.length_range'] at hacc
    rw [hacc, straight_line_depreciation]
    have hn : (useful_life : ℚ) ≠ 0 :=
      Nat.cast_ne_zero.mpr (Nat.one_le_iff_ne_zero.mp h)
    rw [zero_add, div_mul_cancel₀ _ hn]

/-- Witness for C2 at cost 10000, residual value 1000, useful life 5. -/
theorem C2_straight_line_schedule_witness :
    1 ≤ 5 ∧
    ((∀ r ∈ generate_straight_line_schedule 10000 1000 5,
        r.expense = (10000 - 1000) / ((5 : ℕ) : ℚ)) ∧
     (∀ r, (generate_straight_line_schedule 10000 1000 5).getLast? = some r →
        r.accumulated = 10000 - 1000)) :=
  ⟨by norm_num, C2_straight_line_schedule 10000 1000 5 (by norm_num)⟩

/-! ## The dispatcher's straight-line normalization -/

theorem normalize_map_bare (cost annual : ℚ) (ys : List ℕ) (acc : ℚ) :
    normalize_straight_line cost
      (ys.map (fun year =>
        { year := year, expense := annual, accumulated := 0,
          bookValue := 0, taxSavings := none })) acc
      = slLoop cost annual ys acc := by
  induction ys generalizing acc with
  | nil => rfl
  | cons y ys ih => simp [normalize_straight_line, slLoop, ih]

/-- C6: for useful_life >= 1, the dispatcher's straight-line branch (bare
expense records followed by the running-sum normalization pass) produces a
schedule equal record-for-record to `generate_straight_line_schedule`. -/
theorem C6_dispatcher_matches_straight_line (cost residual_value : ℚ)
    (useful_life : ℕ) (h : 1 ≤ useful_life) :
    generate_depreciation_schedule "straight_line" cost residual_value useful_life
        none none none
      = Except.ok (generate_straight_line_schedule cost residual_value useful_life) := by
  have hne : useful_life ≠ 0 := Nat.one_le_iff_ne_zero.mp h
  unfold generate_depreciation_schedule
  rw [if_pos rfl, if_neg hne]
  show Except.ok (normalize_straight_line cost
      ((List.range' 1 useful_life).map (fun year =>
        { year := year,
          expense := straight_line_depreciation cost residual_value useful_life,
          accumulated := 0, bookValue := 0, taxSavings := none })) 0) = _
  rw [normalize_map_bare]
  rfl

/-- Witness for C6 at cost 10000, residual value 1000, useful life 5. -/
theorem C6_dispatcher_matches_straight_line_witness :
    1 ≤ 5 ∧
    generate_depreciation_schedule "straight_line" 10000 1000 5 none none none
      = Except.ok (generate_straight_line_schedule 10000 1000 5) :=
  ⟨by norm_num, C6_dispatcher_matches_straight_line 10000 1000 5 (by norm_num)⟩

/-! ## Tax-savings overlay -/

/-- C1 counterexample: the claim says two applications of the tax-savings
overlay at the same rate leave every record with
`Tax Savings = 2 * Depreciation Expense * tax_rate`.  On the one-record
schedule with expense 100 and rate 1/2, two applications leave Tax Savings
at 50, not 100, so the claim is false. -/
theorem C1_double_overlay_counterexample :
    ¬ (∀ r ∈ tax_savings_from_depreciation
          (tax_savings_from_depreciation exampleSchedule (1/2)) (1/2),
        r.taxSavings = some (2 * r.expense * (1/2))) := by
  have hs : tax_savings_from_depreciation
      (tax_savings_from_depreciation exampleSchedule (1/2)) (1/2)
      = [{ year := 1, expense := 100, accumulated := 100, bookValue := 900,
           taxSavings := some 50 }] := by
    simp only [tax_savings_from_depreciation, exampleSchedule, List.map_cons,
      List.map_nil, List.cons.injEq, and_true]
    norm_num
  intro h
  rw [hs] at h
  have h1 := h _ (List.mem_singleton.mpr rfl)
  norm_num at h1

/-- C1 (amended): the overlay overwrites `Tax Savings` with
`Depreciation Expense * tax_rate`, so applying it twice with the same rate
yields exactly the single-application schedule (it is idempotent, and in
particular does not double the Tax Savings field). -/
theorem C1_double_overlay_equals_single (sched : List YearRecord) (tax_rate : ℚ) :
    tax_savings_from_depreciation (tax_savings_from_depreciation sched tax_rate)
        tax_rate
      = tax_savings_from_depreciation sched tax_rate := by
  unfold tax_savings_from_depreciation
  rw [List.map_map]
  rfl

/-! ## Dispatcher error handling and degenerate input -/

/-- C10: the dispatcher's `if not factor` check treats the explicit factor 0
as falsy and substitutes the default 2, so declining-balance with factor 0
returns the factor-2 schedule; at the sample asset the factor-0 schedule
would have had every expense 0 and differs from the factor-2 schedule. -/
theorem C10_factor_zero_defaults_to_two :
    (∀ (cost residual_value : ℚ) (useful_life : ℕ) (total_units : Option ℚ)
        (units_used : Option (List ℚ)),
      generate_depreciation_schedule "declining_balance" cost residual_value
          useful_life (some 0) total_units units_used
        = Except.ok (declining_balance_depreciation cost residual_value useful_life 2)) ∧
    (∀ r ∈ declining_balance_depreciation 10000 1000 5 0, r.expense = 0) ∧
    declining_balance_depreciation 10000 1000 5 2
      ≠ declining_balance_depreciation 10000 1000 5 0 := by
  refine ⟨fun _ _ _ _ _ => rfl, ?_, ?_⟩
  · norm_num [declining_balance_depreciation, dbLoop, db_expense, List.range']
  · intro h
    have h0 := congrArg (fun l => (l.getD 0 dummyRecord).expense) h
    norm_num [declining_balance_depreciation, dbLoop, db_expense, List.range',
      List.getD_cons_zero] at h0

/-- C5: any method name outside the valid set fails with the invalid-method
error naming that set; `units_of_production` with `total_units` or
`units_used` absent fails with the invalid-input error; in the `Except`
model an error carries no schedule, so no partial schedule is returned. -/
theorem C5_dispatcher_errors (method : String) (cost residual_value : ℚ)
    (useful_life : ℕ) (factor total_units : Option ℚ)
    (units_used : Option (List ℚ)) :
    (method ≠ "straight_line" → method ≠ "declining_balance" →
     method ≠ "units_of_production" →
      generate_depreciation_schedule method cost residual_value useful_life factor
          total_units units_used
        = Except.error (DeprError.invalidMethod validMethodSet)) ∧
    (total_units = none ∨ units_used = none →
      generate_depreciation_schedule "units_of_production" cost residual_value
          useful_life factor total_units units_used
        = Except.error (DeprError.invalidInput uopErrorMessage)) := by
  constructor
  · intro h1 h2 h3
    unfold generate_depreciation_schedule
    rw [if_neg h1, if_neg h2, if_neg h3]
  · intro h
    unfold generate_depreciation_schedule
    rw [if_neg (by decide), if_neg (by decide), if_pos rfl]
    rcases h with h | h
    · subst h; cases units_used <;> rfl
    · subst h; cases total_units <;> rfl

/-- Witness for C5: unknown method `sum_of_years` and a units-of-production
call with both optional inputs absent. -/
theorem C5_dispatcher_errors_witness :
    generate_depreciation_schedule "sum_of_years" 10000 1000 5 none none none
      = Except.error (DeprError.invalidMethod validMethodSet) ∧
    generate_depreciation_schedule "units_of_production" 10000 1000 5 none none none
      = Except.error (DeprError.invalidInput uopErrorMessage) :=
  ⟨(C5_dispatcher_errors "sum_of_years" 10000 1000 5 none none none).1
      (by decide) (by decide) (by decide),
   (C5_dispatcher_errors "units_of_production" 10000 1000 5 none none none).2
      (Or.inl rfl)⟩

/-- C4 (actual code behavior at the degenerate inputs): with
`useful_life = 0` the straight-line branch propagates the division fault
(`ZeroDivisionError`) and the declining-balance branch silently returns an
empty schedule; only `total_units = 0` happens to fail with the
invalid-input `ValueError`, because 0 is falsy in the truthiness check.
The claimed guard (fail with InvalidInput in all three cases) is absent. -/
theorem C4_degenerate_input_behavior :
    generate_depreciation_schedule "straight_line" 10000 1000 0 none none none
      = Except.error DeprError.zeroDivisionError ∧
    generate_depreciation_schedule "declining_balance" 10000 1000 0 none none none
      = Except.ok [] ∧
    generate_depreciation_schedule "units_of_production" 10000 1000 5 none (some 0)
        (some [5000, 10000])
      = Except.error (DeprError.invalidInput uopErrorMessage) :=
  ⟨rfl, rfl, rfl⟩

/-! ## Lemmas about the partial-year cascade -/

theorem cascade_adjust_getD_zero (prev : YearRecord) (rest : List YearRecord) :
    (cascade_adjust prev rest).getD 0 dummyRecord = prev := by
  cases rest <;> rfl

theorem cascade_adjust_spec (prev : YearRecord) (rest : List YearRecord) (i : ℕ)
    (hi : i < rest.length) :
    ((cascade_adjust prev rest).getD (i+1) dummyRecord).expense
        = (rest.getD i dummyRecord).expense ∧
    ((cascade_adjust prev rest).getD (i+1) dummyRecord).accumulated
        = ((cascade_adjust prev rest).getD i dummyRecord).accumulated
          + (rest.getD i dummyRecord).expense ∧
    ((cascade_adjust prev rest).getD (i+1) dummyRecord).bookValue
        = ((cascade_adjust prev rest).getD i dummyRecord).bookValue
          - (rest.getD i dummyRecord).expense := by
  induction rest generalizing prev i with
  | nil => exact absurd hi (Nat.not_lt_zero i)
  | cons r rs ih =>
    cases i with
    | zero =>
      have e : cascade_adjust prev (r :: rs)
          = prev :: cascade_adjust
              { r with accumulated := prev.accumulated + r.expense,
                       bookValue := prev.bookValue - r.expense } rs := rfl
      have e0 := cascade_adjust_getD_zero
          { r with accumulated := prev.accumulated + r.expense,
                   bookValue := prev.bookValue - r.expense } rs
      simp only [e, List.getD_cons_succ, List.getD_cons_zero, e0, and_self_iff]
    | succ k =>
      have hk : k < rs.length := by
        simp only [List.length_cons] at hi
        omega
      simp only [cascade_adjust, List.getD_cons_succ]
      exact ih _ k hk

/-- C7: on a non-empty schedule with acquisition month in 1..12,
`partial_year_depreciation` prorates the first record's expense to
`(first expense / 12) * (12 - acquisition_month + 1)` and rewrites every
subsequent record from the previous output record: expense is kept
unprorated, accumulated depreciation = previous accumulated + expense,
book value = previous book value - expense. -/
theorem C7_partial_year_proration (sched : List YearRecord) (m : ℕ)
    (r0 : YearRecord) (h0 : sched.head? = some r0) (h1 : 1 ≤ m) (h2 : m ≤ 12) :
    ((partial_year_depreciation sched m).getD 0 dummyRecord).expense
        = r0.expense / 12 * (12 - (m : ℚ) + 1) ∧
    ∀ i, i + 1 < sched.length →
      (((partial_year_depreciation sched m).getD (i+1) dummyRecord).expense
          = (sched.getD (i+1) dummyRecord).expense ∧
       ((partial_year_depreciation sched m).getD (i+1) dummyRecord).accumulated
          = ((partial_year_depreciation sched m).getD i dummyRecord).accumulated
            + (sched.getD (i+1) dummyRecord).expense ∧
       ((partial_year_depreciation sched m).getD (i+1) dummyRecord).bookValue
          = ((partial_year_depreciation sched m).getD i dummyRecord).bookValue
            - (sched.getD (i+1) dummyRecord).expense) := by
  cases sched with
  | nil => simp at h0
  | cons a rest =>
    have ha : a = r0 := by simpa using h0
    subst ha
    have hred : partial_year_depreciation (a :: rest) m
        = cascade_adjust
            { year := a.year,
              expense := a.expense / 12 * (12 - (m : ℚ) + 1),
              accumulated := a.accumulated,
              bookValue := a.bookValue - (a.expense / 12 * (12 - (m : ℚ) + 1)
                             - a.expense / 12 * (12 - (m : ℚ) + 1)),
              taxSavings := a.taxSavings } rest := rfl
    refine ⟨?_, ?_⟩
    · rw [hred, cascade_adjust_getD_zero]
    · intro i hi
      have hi2 : i < rest.length := by
        simp only [List.length_cons] at hi
        omega
      rw [hred]
      simp only [List.getD_cons_succ]
      exact cascade_adjust_spec _ rest i hi2

/-- Witness for C7: the first three years of the straight-line sample asset,
acquired in month 7. -/
theorem C7_partial_year_proration_witness :
    (sampleSchedule3.head? = some sampleFirstRecord ∧ 1 ≤ 7 ∧ 7 ≤ 12) ∧
    (((partial_year_depreciation sampleSchedule3 7).getD 0 dummyRecord).expense
        = sampleFirstRecord.expense / 12 * (12 - ((7 : ℕ) : ℚ) + 1) ∧
     ∀ i, i + 1 < sampleSchedule3.length →
       (((partial_year_depreciation sampleSchedule3 7).getD (i+1) dummyRecord).expense
           = (sampleSchedule3.getD (i+1) dummyRecord).expense ∧
        ((partial_year_depreciation sampleSchedule3 7).getD (i+1) dummyRecord).accumulated
           = ((partial_year_depreciation sampleSchedule3 7).getD i dummyRecord).accumulated
             + (sampleSchedule3.getD (i+1) dummyRecord).expense ∧
        ((partial_year_depreciation sampleSchedule3 7).getD (i+1) dummyRecord).bookValue
           = ((partial_year_depreciation sampleSchedule3 7).getD i dummyRecord).bookValue
             - (sampleSchedule3.getD (i+1) dummyRecord).expense)) :=
  ⟨⟨rfl, by norm_num, by norm_num⟩,
   C7_partial_year_proration sampleSchedule3 7 sampleFirstRecord rfl
     (by norm_num) (by norm_num)⟩

/-- C8: `partial_year_depreciation` leaves the first record's Book Value,
Accumulated Depreciation, Year and Tax Savings unchanged — the book-value
adjustment subtracts the already-overwritten expense from itself, a no-op —
so only the first record's Depreciation Expense field can change. -/
theorem C8_partial_year_first_record_frame (sched : List YearRecord) (m : ℕ)
    (r0 : YearRecord) (h0 : sched.head? = some r0) :
    ((partial_year_depreciation sched m).getD 0 dummyRecord).bookValue
        = r0.bookValue ∧
    ((partial_year_depreciation sched m).getD 0 dummyRecord).accumulated
        = r0.accumulated ∧
    ((partial_year_depreciation sched m).getD 0 dummyRecord).year = r0.year ∧
    ((partial_year_depreciation sched m).getD 0 dummyRecord).taxSavings
        = r0.taxSavings := by
  cases sched with
  | nil => simp at h0
  | cons a rest =>
    have ha : a = r0 := by simpa using h0
    subst ha
    have hred : partial_year_depreciation (a :: rest) m
        = cascade_adjust
            { year := a.year,
              expense := a.expense / 12 * (12 - (m : ℚ) + 1),
              accumulated := a.accumulated,
              bookValue := a.bookValue - (a.expense / 12 * (12 - (m : ℚ) + 1)
                             - a.expense / 12 * (12 - (m : ℚ) + 1)),
              taxSavings := a.taxSavings } rest := rfl
    rw [hred, cascade_adjust_getD_zero]
    exact ⟨by ring, rfl, rfl, rfl⟩

/-- Witness for C8: the sample schedule, acquired in month 4. -/
theorem C8_partial_year_first_record_frame_witness :
    sampleSchedule3.head? = some sampleFirstRecord ∧
    (((partial_year_depreciation sampleSchedule3 4).getD 0 dummyRecord).bookValue
        = sampleFirstRecord.bookValue ∧
     ((partial_year_depreciation sampleSchedule3 4).getD 0 dummyRecord).accumulated
        = sampleFirstRecord.accumulated ∧
     ((partial_year_depreciation sampleSchedule3 4).getD 0 dummyRecord).year
        = sampleFirstRecord.year ∧
     ((partial_year_depreciation sampleSchedule3 4).getD 0 dummyRecord).taxSavings
        = sampleFirstRecord.taxSavings) :=
  ⟨rfl, C8_partial_year_first_record_frame sampleSchedule3 4 sampleFirstRecord rfl⟩

/-! ## MACRS invariants -/

theorem macrsLoop_book_nonneg (cost : ℚ) (ps : List ℚ) (year : ℕ) (acc : ℚ) :
    ∀ r ∈ macrsLoop cost ps year acc, 0 ≤ r.bookValue := by
  induction ps generalizing year acc with
  | nil => intro r hr; simp [macrsLoop] at hr
  | cons p rest ih =>
    intro r hr
    simp only [macrsLoop, List.mem_cons] at hr
    rcases hr with h | h
    · subst h; exact le_max_right _ _
    · exact ih _ _ r h

theorem macrsLoop_book_mono (cost : ℚ) (hc : 0 ≤ cost) :
    ∀ (ps : List ℚ), (∀ p ∈ ps, 0 ≤ p) → ∀ (year : ℕ) (acc : ℚ) (i : ℕ),
      i + 1 < (macrsLoop cost ps year acc).length →
      ((macrsLoop cost ps year acc).getD (i+1) dummyRecord).bookValue
        ≤ ((macrsLoop cost ps year acc).getD i dummyRecord).bookValue := by
  intro ps
  induction ps with
  | nil =>
    intro _ year acc i hi
    simp [macrsLoop] at hi
  | cons p rest ih =>
    intro hp year acc i hi
    cases i with
    | zero =>
      cases rest with
      | nil =>
        simp only [macrsLoop, List.length_cons, List.length_nil] at hi
        omega
      | cons p2 rest2 =>
        have hp2 : (0:ℚ) ≤ p2 := hp p2 (by simp)
        have e : macrsLoop cost (p :: p2 :: rest2) year acc
            = { year := year, expense := cost * (p / 100),
                accumulated := acc + cost * (p / 100),
                bookValue := max (cost - (acc + cost * (p / 100))) 0,
                taxSavings := none }
              :: { year := year + 1, expense := cost * (p2 / 100),
                   accumulated := acc + cost * (p / 100) + cost * (p2 / 100),
                   bookValue := max (cost - (acc + cost * (p / 100) + cost * (p2 / 100))) 0,
                   taxSavings := none }
              :: macrsLoop cost rest2 (year + 1 + 1)
                   (acc + cost * (p / 100) + cost * (p2 / 100)) := rfl
        rw [e]
        simp only [List.getD_cons_succ, List.getD_cons_zero]
        have hexp : (0:ℚ) ≤ cost * (p2 / 100) :=
          mul_nonneg hc (div_nonneg hp2 (by norm_num))
        exact max_le_max (by linarith) le_rfl
    | succ k =>
      cases rest with
      | nil =>
        simp only [macrsLoop, List.length_cons, List.length_nil] at hi
        omega
      | cons p2 rest2 =>
        have e : macrsLoop cost (p :: p2 :: rest2) year acc
            = { year := year, expense := cost * (p / 100),
                accumulated := acc + cost * (p / 100),
                bookValue := max (cost - (acc + cost * (p / 100))) 0,
                taxSavings := none }
              :: macrsLoop cost (p2 :: rest2) (year + 1) (acc + cost * (p / 100)) := rfl
        rw [e] at hi ⊢
        simp only [List.getD_cons_succ]
        simp only [List.length_cons] at hi
        exact ih (fun q hq => hp q (List.mem_cons_of_mem p hq)) (year + 1) _ k (by omega)

/-- C9: for non-negative cost and any table of non-negative percentages
(in particular the default table 20, 32, 19.2, 11.52, 11.52, 5.76), every
record of `macrs_depreciation` has Book Value >= 0, and Book Value is
non-increasing from each record to the next. -/
theorem C9_macrs_book_value (cost : ℚ) (table : List ℚ) (hc : 0 ≤ cost)
    (hp : ∀ p ∈ table, 0 ≤ p) :
    (∀ r ∈ macrs_depreciation cost table, 0 ≤ r.bookValue) ∧
    ∀ i, i + 1 < (macrs_depreciation cost table).length →
      ((macrs_depreciation cost table).getD (i+1) dummyRecord).bookValue
        ≤ ((macrs_depreciation cost table).getD i dummyRecord).bookValue := by
  constructor
  · exact fun r hr => macrsLoop_book_nonneg cost table 1 0 r hr
  · exact fun i hi => macrsLoop_book_mono cost hc table hp 1 0 i hi

/-- Witness for C9 at cost 10000 with the default MACRS table. -/
theorem C9_macrs_book_value_witness :
    ((0:ℚ) ≤ 10000 ∧ ∀ p ∈ default_macrs_percentage, (0:ℚ) ≤ p) ∧
    ((∀ r ∈ macrs_depreciation 10000 default_macrs_percentage, 0 ≤ r.bookValue) ∧
     ∀ i, i + 1 < (macrs_depreciation 10000 default_macrs_percentage).length →
       ((macrs_depreciation 10000 default_macrs_percentage).getD (i+1)
           dummyRecord).bookValue
         ≤ ((macrs_depreciation 10000 default_macrs_percentage).getD i
             dummyRecord).bookValue) :=
  ⟨⟨by norm_num, by norm_num [default_macrs_percentage]⟩,
   C9_macrs_book_value 10000 default_macrs_percentage (by norm_num)
     (by norm_num [default_macrs_percentage])⟩

/-! ## Declining-balance invariants -/

theorem db_step_ge (residual_value : ℚ) (useful_life : ℕ) (factor book_value : ℚ)
    (h : residual_value ≤ book_value) :
    residual_value
      ≤ book_value - db_expense residual_value factor useful_life book_value := by
  simp only [db_expense]
  split_ifs with h1 h2 <;> linarith

theorem db_expense_at_floor (residual_value : ℚ) (useful_life : ℕ) (factor : ℚ)
    (h0 : 0 ≤ residual_value) (hf : 0 < factor) (hn : 1 ≤ useful_life) :
    db_expense residual_value factor useful_life residual_value = 0 := by
  have hnq : (0:ℚ) < (useful_life : ℚ) := by exact_mod_cast hn
  have he : 0 ≤ (factor / (useful_life : ℚ)) * residual_value :=
    mul_nonneg (le_of_lt (div_pos hf hnq)) h0
  simp only [db_expense]
  split_ifs with h1 h2
  · rfl
  · simp
  · linarith

theorem dbLoop_book_ge (cost residual_value : ℚ) (useful_life : ℕ) (factor : ℚ)
    (ys : List ℕ) :
    ∀ book, residual_value ≤ book →
      ∀ r ∈ dbLoop cost residual_value useful_life factor ys book,
        residual_value ≤ r.bookValue := by
  induction ys with
  | nil => intro book hb r hr; simp [dbLoop] at hr
  | cons y ys ih =>
    intro book hb r hr
    have hstep := db_step_ge residual_value useful_life factor book hb
    simp only [dbLoop] at hr
    rcases List.mem_cons.mp hr with h | h
    · subst h; exact hstep
    · exact ih _ hstep r h

theorem dbLoop_at_floor (cost residual_value : ℚ) (useful_life : ℕ) (factor : ℚ)
    (h0 : 0 ≤ residual_value) (hf : 0 < factor) (hn : 1 ≤ useful_life)
    (ys : List ℕ) :
    ∀ r ∈ dbLoop cost residual_value useful_life factor ys residual_value,
      r.expense = 0 ∧ r.bookValue = residual_value := by
  induction ys with
  | nil => intro r hr; simp [dbLoop] at hr
  | cons y ys ih =>
    intro r hr
    have hz := db_expense_at_floor residual_value useful_life factor h0 hf hn
    simp only [dbLoop, hz, sub_zero] at hr
    rcases List.mem_cons.mp hr with h | h
    · subst h; exact ⟨rfl, rfl⟩
    · exact ih r h

theorem dbLoop_floor_propagates (cost residual_value : ℚ) (useful_life : ℕ)
    (factor : ℚ) (h0 : 0 ≤ residual_value) (hf : 0 < factor)
    (hn : 1 ≤ useful_life) (ys : List ℕ) :
    ∀ book, residual_value ≤ book →
      ∀ i, i < (dbLoop cost residual_value useful_life factor ys book).length →
        ((dbLoop cost residual_value useful_life factor ys book).getD i
            dummyRecord).bookValue = residual_value →
        ∀ r ∈ (dbLoop cost residual_value useful_life factor ys book).drop (i+1),
          r.expense = 0 := by
  induction ys with
  | nil => intro book hb i hilen; simp [dbLoop] at hilen
  | cons y ys ih =>
    intro book hb i hilen hbook r hr
    have hstep := db_step_ge residual_value useful_life factor book hb
    have e : dbLoop cost residual_value useful_life factor (y :: ys) book
        = { year := y, expense := db_expense residual_value factor useful_life book,
            accumulated :=
              cost - (book - db_expense residual_value factor useful_life book),
            bookValue := book - db_expense residual_value factor useful_life book,
            taxSavings := none }
          :: dbLoop cost residual_value useful_life factor ys
               (book - db_expense residual_value factor useful_life book) := rfl
    cases i with
    | zero =>
      rw [e, List.getD_cons_zero] at hbook
      rw [e, List.drop_succ_cons, List.drop_zero] at hr
      have hbook2 : book - db_expense residual_value factor useful_life book
          = residual_value := hbook
      rw [hbook2] at hr
      exact (dbLoop_at_floor cost residual_value useful_life factor h0 hf hn ys
        r hr).1
    | succ k =>
      rw [e, List.getD_cons_succ] at hbook
      rw [e, List.drop_succ_cons] at hr
      rw [e, List.length_cons] at hilen
      exact ih _ hstep k (by omega) hbook r hr

/-- C3: with cost >= residual_value >= 0, factor > 0 and useful_life >= 1,
every record of `declining_balance_depreciation` has Book Value >=
residual_value, and once a record's Book Value equals residual_value every
subsequent record's Depreciation Expense is exactly 0. -/
theorem C3_declining_balance_floor (cost residual_value : ℚ) (useful_life : ℕ)
    (factor : ℚ) (h1 : residual_value ≤ cost) (h2 : 0 ≤ residual_value)
    (h3 : 0 < factor) (h4 : 1 ≤ useful_life) :
    (∀ r ∈ declining_balance_depreciation cost residual_value useful_life factor,
        residual_value ≤ r.bookValue) ∧
    ∀ i, i < (declining_balance_depreciation cost residual_value useful_life
          factor).length →
      ((declining_balance_depreciation cost residual_value useful_life
          factor).getD i dummyRecord).bookValue = residual_value →
      ∀ r ∈ (declining_balance_depreciation cost residual_value useful_life
          factor).drop (i+1),
        r.expense = 0 := by
  constructor
  · exact fun r hr =>
      dbLoop_book_ge cost residual_value useful_life factor _ cost h1 r hr
  · exact fun i hi hbook r hr =>
      dbLoop_floor_propagates cost residual_value useful_life factor h2 h3 h4 _
        cost h1 i hi hbook r hr

/-- Witness for C3 at the spec's declining-balance sample asset: cost 10000,
residual 1000, life 5, factor 2. -/
theorem C3_declining_balance_floor_witness :
    ((1000:ℚ) ≤ 10000 ∧ (0:ℚ) ≤ 1000 ∧ (0:ℚ) < 2 ∧ 1 ≤ 5) ∧
    ((∀ r ∈ declining_balance_depreciation 10000 1000 5 2, 1000 ≤ r.bookValue) ∧
     ∀ i, i < (declining_balance_depreciation 10000 1000 5 2).length →
       ((declining_balance_depreciation 10000 1000 5 2).getD i
           dummyRecord).bookValue = 1000 →
       ∀ r ∈ (declining_balance_depreciation 10000 1000 5 2).drop (i+1),
         r.expense = 0) :=
  ⟨⟨by norm_num, by norm_num, by norm_num, by norm_num⟩,
   C3_declining_balance_floor 10000 1000 5 2 (by norm_num) (by norm_num)
     (by norm_num) (by norm_num)⟩
